import Mathlib

/-!
Verification of the scoring / feedback engine of the AI mock-interview
platform, together with the retry and audio-upload helpers of its
frontend API layer.

The scoring engine (ScoreAggregator, GradeClassifier, FeedbackSynthesizer,
ReadinessEvaluator, HistoryAnalytics) is present in the repository only as
design documentation; its definitions below are modelled from the spec.
The retry helper `withRetry` and the size-limit check `isWithinSizeLimit`
are embedded from the actual JavaScript sources
(`apiUtils`/`AudioUploadService.js` and `api/config.js`).

Scores are embedded as rationals (`ℚ`): the JavaScript/Python sources use
ordinary decimal arithmetic on values in [0,100] and the spec's contracts
(weighted sums, one-decimal rounding, clamps) are exact in `ℚ`.
-/

/-- The four NLP scoring dimensions of a question evaluation. -/
inductive Dimension where
  | relevance
  | grammar
  | fluency
  | keyword
deriving DecidableEq, Repr

/-- All dimensions, in the order the documentation lists them. -/
def Dimension.all : List Dimension :=
  [.relevance, .grammar, .fluency, .keyword]

/-- Display name of a dimension, as used for feedback categories. -/
def Dimension.name : Dimension → String
  | .relevance => "Relevance"
  | .grammar => "Grammar"
  | .fluency => "Fluency"
  | .keyword => "Keywords"

/-- Modelled from the spec: `WeightProfile` — a named mapping from
dimension to weight (the engine implementation is absent from the
repository; only its documentation survives). -/
structure WeightProfile where
  name : String
  weight : Dimension → ℚ

/-- Sum of the four weights of a weight map. -/
def sumWeights (w : Dimension → ℚ) : ℚ :=
  w .relevance + w .grammar + w .fluency + w .keyword

/-- The default weight map documented in the NLP-evaluation README:
relevance 35%, grammar 20%, fluency 25%, keywords 20%. -/
def defaultWeights : Dimension → ℚ
  | .relevance => 35/100
  | .grammar => 20/100
  | .fluency => 25/100
  | .keyword => 20/100

/-- The always-available "default" weight profile. -/
def defaultProfile : WeightProfile :=
  { name := "default", weight := defaultWeights }

/-- Modelled from the spec: the registry of weight profiles; the spec
requires at least the "default" profile to be registered. -/
def registeredProfiles : List WeightProfile :=
  [defaultProfile]

/-- Weight-profile validity: every weight non-negative and the sum equal
to 1 within the documented tolerance of 1e-6. -/
def validWeightMap (w : Dimension → ℚ) : Prop :=
  (∀ d, 0 ≤ w d) ∧ |sumWeights w - 1| ≤ 1/1000000

instance (w : Dimension → ℚ) : Decidable (validWeightMap w) := by
  unfold validWeightMap
  have : Decidable (∀ d, 0 ≤ w d) := by
    have h : (∀ d, 0 ≤ w d) ↔
        (0 ≤ w .relevance ∧ 0 ≤ w .grammar ∧ 0 ≤ w .fluency ∧ 0 ≤ w .keyword) := by
      constructor
      · intro h; exact ⟨h _, h _, h _, h _⟩
      · rintro ⟨h1, h2, h3, h4⟩ d; cases d <;> assumption
    exact decidable_of_iff _ h.symm
  exact instDecidableAnd

/-- Errors of the scoring engine, as named in the spec's error taxonomy. -/
inductive ScoreError where
  | emptySession
  | invalidWeightProfile
  | sessionNotCompleted
  | breakdownNotFound
deriving DecidableEq, Repr

/-- Modelled from the spec: profile load-time validation — fails with
`InvalidWeightProfileError` if weights do not sum to 1.0 within 1e-6
tolerance or any weight is negative (engine code absent from the repo). -/
def loadWeightProfile (name : String) (w : Dimension → ℚ) :
    Except ScoreError WeightProfile :=
  if validWeightMap w then .ok { name := name, weight := w }
  else .error .invalidWeightProfile

/-- Round-half-away-from-zero to one decimal place, the rounding the spec
prescribes for `total_score`. -/
def roundHalfAwayTenths (q : ℚ) : ℚ :=
  if q < 0 then -((⌊-q * 10 + 1/2⌋ : ℤ) : ℚ) / 10
  else ((⌊q * 10 + 1/2⌋ : ℤ) : ℚ) / 10

/-- Modelled from the spec: `GradeClassifier.classify` — fixed bands with
inclusive lower bounds, matching the README's table
`A+ (90%+), A (80%+), B+ (70%+), B (60%+), C (50%+), D (40%+), F (<40%)`
(no classifier implementation exists in the repository). -/
def classify (s : ℚ) : String :=
  if 90 ≤ s then "A+"
  else if 80 ≤ s then "A"
  else if 70 ≤ s then "B+"
  else if 60 ≤ s then "B"
  else if 50 ≤ s then "C"
  else if 40 ≤ s then "D"
  else "F"

/-- Modelled from the spec: `QuestionScore` — one evaluated answer, each
dimension optionally scored (a question may miss a dimension and still
contribute to the others). -/
structure QuestionScore where
  score : Dimension → Option ℚ

/-- The scores contributed to dimension `d` by the questions of a session:
only questions where `d` was evaluated contribute. -/
def contributors (qs : List QuestionScore) (d : Dimension) : List ℚ :=
  qs.filterMap (fun q => q.score d)

/-- Arithmetic mean of a dimension's contributing scores, `none` when no
question contributed to the dimension. -/
def dimensionAverage (qs : List QuestionScore) (d : Dimension) : Option ℚ :=
  let c := contributors qs d
  if c.isEmpty then none else some (c.sum / c.length)

/-- Modelled from the spec: the weighted total over the dimensions that
have an average, with the weights of absent dimensions omitted from the
normalization (spec §4.1 together with §7). -/
def normalizedTotal (avg : Dimension → Option ℚ) (p : WeightProfile) : ℚ :=
  let present := Dimension.all.filter (fun d => (avg d).isSome)
  let wsum := (present.map p.weight).sum
  let s := (present.map (fun d => (avg d).getD 0 * p.weight d)).sum
  s / wsum

/-- Modelled from the spec: `SessionScoreBreakdown` — per-dimension
averages and weighted contributions, rounded total score and letter
grade. -/
structure SessionScoreBreakdown where
  averages : Dimension → Option ℚ
  weighted : Dimension → Option ℚ
  total_score : ℚ
  letter_grade : String

/-- Modelled from the spec: `ScoreAggregator.computeSessionBreakdown` —
averages each dimension over its contributing questions, fails with
`EmptySessionError` when no dimension has a contributor, otherwise
produces the weighted, rounded total and its grade (the aggregator
implementation is absent from the repository). -/
def computeSessionBreakdown (qs : List QuestionScore) (p : WeightProfile) :
    Except ScoreError SessionScoreBreakdown :=
  if Dimension.all.all (fun d => (contributors qs d).isEmpty) then
    .error .emptySession
  else
    let avg := fun d => dimensionAverage qs d
    let t := roundHalfAwayTenths (normalizedTotal avg p)
    .ok { averages := avg
          weighted := fun d => (avg d).map (fun a => a * p.weight d)
          total_score := t
          letter_grade := classify t }

/-- Session lifecycle states, from the spec's state machine. -/
inductive SessionStatus where
  | created
  | inProgress
  | completed
  | cancelled
deriving DecidableEq, Repr

/-- Modelled from the spec: the exposed `computeAndStoreScores` — fails
with `SessionNotCompletedError` on a non-completed session, otherwise
delegates to `computeSessionBreakdown` (implementation absent from the
repository; persistence is outside the engine). -/
def computeAndStoreScores (status : SessionStatus) (qs : List QuestionScore)
    (p : WeightProfile) : Except ScoreError SessionScoreBreakdown :=
  if status = .completed then computeSessionBreakdown qs p
  else .error .sessionNotCompleted

/-- Total score of an aggregation result, when it succeeded. -/
def totalOf (r : Except ScoreError SessionScoreBreakdown) : Option ℚ :=
  r.toOption.map (fun b => b.total_score)

/-- Letter grade of an aggregation result, when it succeeded. -/
def gradeOf (r : Except ScoreError SessionScoreBreakdown) : Option String :=
  r.toOption.map (fun b => b.letter_grade)

/-- A question with all four dimensions evaluated. -/
def fullQuestion (r g f k : ℚ) : QuestionScore :=
  { score := fun d => match d with
      | .relevance => some r
      | .grammar => some g
      | .fluency => some f
      | .keyword => some k }

/-- One strengths/weaknesses entry of a feedback record. -/
structure FeedbackEntry where
  category : String
  message : String
deriving DecidableEq, Repr

/-- A dimension is an eligible strength when its average is at least 80. -/
def strengthEligible (avg : Dimension → Option ℚ) (d : Dimension) : Bool :=
  match avg d with
  | some a => decide (80 ≤ a)
  | none => false

/-- A dimension is an eligible weakness when its average is below 60. -/
def weaknessEligible (avg : Dimension → Option ℚ) (d : Dimension) : Bool :=
  match avg d with
  | some a => decide (a < 60)
  | none => false

/-- The numeric value of a dimension average, 0 when absent. -/
def avgVal (avg : Dimension → Option ℚ) (d : Dimension) : ℚ :=
  (avg d).getD 0

/-- Insert a dimension into a list kept sorted by descending key. -/
def insertByDesc (key : Dimension → ℚ) (d : Dimension) :
    List Dimension → List Dimension
  | [] => [d]
  | e :: es => if key e ≤ key d then d :: e :: es else e :: insertByDesc key d es

/-- Insertion sort of dimensions by descending key. -/
def sortByDesc (key : Dimension → ℚ) : List Dimension → List Dimension
  | [] => []
  | d :: ds => insertByDesc key d (sortByDesc key ds)

/-- Modelled from the spec: the strength dimensions emitted by
`FeedbackSynthesizer.synthesize` — eligible dimensions sorted descending
by score, capped at 3 entries (the synthesizer implementation is absent
from the repository). -/
def strengthDims (avg : Dimension → Option ℚ) : List Dimension :=
  (sortByDesc (avgVal avg) (Dimension.all.filter (strengthEligible avg))).take 3

/-- Modelled from the spec: the weakness dimensions emitted by
`FeedbackSynthesizer.synthesize` — eligible dimensions sorted ascending
by score (worst first), capped at 3 entries. -/
def weaknessDims (avg : Dimension → Option ℚ) : List Dimension :=
  (sortByDesc (fun d => -(avgVal avg d))
    (Dimension.all.filter (weaknessEligible avg))).take 3

/-- The generic strength emitted when no dimension is an eligible strength. -/
def fallbackStrength : FeedbackEntry :=
  { category := "General", message := "Balanced performance across all areas" }

/-- The generic entry emitted when no dimension is an eligible weakness. -/
def fallbackWeakness : FeedbackEntry :=
  { category := "General", message := "No major weaknesses detected" }

/-- Modelled from the spec: the `strengths` list of the feedback record —
one entry per strength dimension, or the single generic fallback. -/
def synthesizeStrengths (avg : Dimension → Option ℚ) : List FeedbackEntry :=
  let l := (strengthDims avg).map
    (fun d => { category := d.name, message := "Strong performance in " ++ d.name })
  if l.isEmpty then [fallbackStrength] else l

/-- Modelled from the spec: the `weaknesses` list of the feedback record —
one entry per weakness dimension (worst first), or the single generic
fallback. -/
def synthesizeWeaknesses (avg : Dimension → Option ℚ) : List FeedbackEntry :=
  let l := (weaknessDims avg).map
    (fun d => { category := d.name, message := "Needs improvement in " ++ d.name })
  if l.isEmpty then [fallbackWeakness] else l

/-- Modelled from the spec: suggestions — each weak category looked up in
the suggestion table, with a generic fallback message for unmatched
categories. -/
def synthesizeSuggestions (avg : Dimension → Option ℚ)
    (suggestionTable : Dimension → Option String) : List String :=
  (weaknessDims avg).map
    (fun d => (suggestionTable d).getD "Keep practicing with more mock sessions")

/-- Clamp a rational into the interval from `lo` to `hi`. -/
def clampQ (lo hi x : ℚ) : ℚ :=
  max lo (min hi x)

/-- Arithmetic mean of a list of rationals (0 on the empty list). -/
def meanQ (l : List ℚ) : ℚ :=
  l.sum / l.length

/-- Modelled from the spec: the trend adjustment of
`ReadinessEvaluator.evaluate` — the delta of the current score against
the average of the previous up to 3 scores, clamped to plus or minus 20,
added back onto the current score and re-clamped to the 0..100 range
(the evaluator implementation is absent from the repository). -/
def trendAdjustment (currentTotalScore : ℚ) (recentScores : List ℚ) : ℚ :=
  let prev := recentScores.take 3
  let delta :=
    if prev.isEmpty then 0
    else clampQ (-20) 20 (currentTotalScore - meanQ prev)
  clampQ 0 100 (currentTotalScore + delta)

/-- Modelled from the spec: readiness level bands — Ready at 85 and above,
Almost Ready at 65 and above, otherwise Needs Practice. -/
def readinessLevel (s : ℚ) : String :=
  if 85 ≤ s then "Ready"
  else if 65 ≤ s then "Almost Ready"
  else "Needs Practice"

/-- Modelled from the spec: next steps — a generic step per level plus one
targeted step naming the weakest dimension. -/
def nextSteps (level : String) (weakest : Dimension) : List String :=
  [ if level = "Ready" then "Schedule real interviews"
    else if level = "Almost Ready" then "Complete 2-3 more mock sessions"
    else "Practice fundamentals with more mock sessions",
    "Focus on improving " ++ weakest.name ]

/-- Readiness fields of a feedback record. -/
structure ReadinessResult where
  readiness_score : ℚ
  readiness_level : String
  next_steps : List String
deriving DecidableEq, Repr

/-- Modelled from the spec: `ReadinessEvaluator.evaluate` — the readiness
score is the blend 0.7 times the current total score plus 0.3 times the
trend adjustment; level and next steps derive from it (the evaluator
implementation is absent from the repository). -/
def evaluateReadiness (currentTotalScore : ℚ) (recentScores : List ℚ)
    (weakest : Dimension) : ReadinessResult :=
  let t := trendAdjustment currentTotalScore recentScores
  let s := 7/10 * currentTotalScore + 3/10 * t
  { readiness_score := s
    readiness_level := readinessLevel s
    next_steps := nextSteps (readinessLevel s) weakest }

/-- Modelled from the spec: `UserHistoryStats` — the rolling per-user
aggregates (the per-dimension `skills_breakdown` and per-category
`category_scores` rolling maps of the spec are not needed by any claim
and are left out of the model). -/
structure UserHistoryStats where
  total_interviews : ℕ
  average_score : ℚ
  best_score : ℚ
  recent_score : ℚ
  current_streak : ℕ
  longest_streak : ℕ
  last_completion_day : Option ℤ
  score_history : List ℚ
  improvement_rate : ℚ
deriving DecidableEq, Repr

/-- The stats created when a user completes their first session, before
that completion is applied. -/
def initialStats : UserHistoryStats :=
  { total_interviews := 0, average_score := 0, best_score := 0
    recent_score := 0, current_streak := 0, longest_streak := 0
    last_completion_day := none, score_history := [], improvement_rate := 0 }

/-- Modelled from the spec: improvement rate — the mean of the most recent
up to 5 scores minus the mean of the preceding up to 5, and 0 when fewer
than 2 sessions exist (`score_history` is most-recent-first). -/
def improvementRate (history : List ℚ) : ℚ :=
  if history.length < 2 then 0
  else meanQ (history.take 5) - meanQ ((history.drop 5).take 5)

/-- Modelled from the spec: the streak update of
`HistoryAnalytics.applyCompletedSession` — one calendar day after the
last completion increments the streak, the same day leaves it unchanged,
any larger gap resets it to 1; the first completion starts it at 1.
Days are embedded as integer epoch-day indices. -/
def streakUpdate (last : Option ℤ) (streak : ℕ) (day : ℤ) : ℕ :=
  match last with
  | none => 1
  | some l => if day = l + 1 then streak + 1 else if day = l then streak else 1

/-- Modelled from the spec: `HistoryAnalytics.applyCompletedSession` —
incremental update of the user stats with one completed session's
`total_score` and completion day (the analytics implementation is absent
from the repository). -/
def applyCompletedSession (stats : UserHistoryStats) (total : ℚ) (day : ℤ) :
    UserHistoryStats :=
  let n := stats.total_interviews + 1
  let st := streakUpdate stats.last_completion_day stats.current_streak day
  let hist := total :: stats.score_history
  { total_interviews := n
    average_score := stats.average_score + (total - stats.average_score) / n
    best_score := max stats.best_score total
    recent_score := total
    current_streak := st
    longest_streak := max stats.longest_streak st
    last_completion_day := some day
    score_history := hist
    improvement_rate := improvementRate hist }

/-- Fold a list of completion days (with a fixed score) into the stats. -/
def historyAfter (days : List ℤ) : UserHistoryStats :=
  days.foldl (fun s day => applyCompletedSession s 70 day) initialStats

/-- The `current_streak` value observed after each completion in turn. -/
def streakSequence (days : List ℤ) : List ℕ :=
  (days.foldl
    (fun (acc : UserHistoryStats × List ℕ) day =>
      let s2 := applyCompletedSession acc.1 70 day
      (s2, acc.2 ++ [s2.current_streak]))
    (initialStats, [])).2

/-- The error payload of an API result (`error.code`, `error.message`),
embedded from the frontend's response envelope. -/
structure ApiError where
  code : Option ℤ
  message : String
deriving DecidableEq, Repr

/-- An API call result: the `{success, error}` part of the envelope that
`withRetry` inspects. -/
structure ApiResult where
  success : Bool
  error : Option ApiError
deriving DecidableEq, Repr

/-- The client-error test of `withRetry` in the frontend utilities:
`result.error?.code >= 400 && result.error?.code < 500` (false whenever
`error` or `code` is absent, as the optional chaining makes it in JS). -/
def isClientError (r : ApiResult) : Bool :=
  match r.error with
  | some e =>
    match e.code with
    | some c => decide (400 ≤ c) && decide (c < 500)
    | none => false
  | none => false

/-- The result `withRetry` returns after exhausting its attempts. -/
def maxRetriesExceeded : ApiResult :=
  { success := false
    error := some { code := none, message := "Max retries exceeded" } }

/-- The attempt loop of `withRetry`: `attempt` is the current attempt
number, the `ℕ` argument the remaining attempts; returns the final result
paired with the number of `apiCall` invocations performed. The delays and
exponential backoff between attempts are timing only and are not part of
the value model. -/
def withRetryFrom (apiCall : ℕ → ApiResult) (attempt : ℕ) :
    ℕ → ApiResult × ℕ
  | 0 => (maxRetriesExceeded, 0)
  | remaining + 1 =>
    let result := apiCall attempt
    if result.success then (result, 1)
    else if isClientError result then (result, 1)
    else
      let rest := withRetryFrom apiCall (attempt + 1) remaining
      (rest.1, rest.2 + 1)

/-- `withRetry(apiCall, maxRetries)` from the frontend utilities: retries
`apiCall` up to `maxRetries` times, returning early on success or on a
4xx client error; `apiCall i` is the result of the i-th invocation. -/
def withRetry (apiCall : ℕ → ApiResult) (maxRetries : ℕ := 3) :
    ApiResult × ℕ :=
  withRetryFrom apiCall 1 maxRetries

/-- `AudioUploadService.isWithinSizeLimit(blob, maxSizeMB)`: the blob size
in bytes is within `maxSizeMB * 1024 * 1024` bytes; the JS default for
`maxSizeMB` is 50. -/
def isWithinSizeLimit (size : ℕ) (maxSizeMB : ℚ := 50) : Bool :=
  let maxBytes := maxSizeMB * 1024 * 1024
  decide ((size : ℚ) ≤ maxBytes)

/-- `UPLOAD_LIMITS.MAX_AUDIO_SIZE` from `frontend/src/api/config.js`:
`50 * 1024 * 1024` bytes. -/
def MAX_AUDIO_SIZE : ℕ :=
  50 * 1024 * 1024

/-- The plain weighted sum of the four dimension values. -/
def weightedSum (f w : Dimension → ℚ) : ℚ :=
  f .relevance * w .relevance + f .grammar * w .grammar +
    f .fluency * w .fluency + f .keyword * w .keyword

/-- Stats of a user with an ongoing streak, used to instantiate the
streak-update theorem at a concrete input. -/
def midStreakStats : UserHistoryStats :=
  { initialStats with
      total_interviews := 2, current_streak := 2, longest_streak := 2,
      last_completion_day := some 5, score_history := [70, 70] }

/-- Every dimension is listed in `Dimension.all`. -/
theorem mem_dimension_all (d : Dimension) : d ∈ Dimension.all := by
  cases d <;> simp [Dimension.all]

/-- Rounding half away from zero to tenths is monotone. -/
theorem roundHalfAwayTenths_mono {q1 q2 : ℚ} (h : q1 ≤ q2) :
    roundHalfAwayTenths q1 ≤ roundHalfAwayTenths q2 := by
  unfold roundHalfAwayTenths
  split_ifs with h1 h2 h2
  · have hf : ⌊-q2 * 10 + 1/2⌋ ≤ ⌊-q1 * 10 + 1/2⌋ :=
      Int.floor_le_floor (by linarith)
    have hc : ((⌊-q2 * 10 + 1/2⌋ : ℤ) : ℚ) ≤ ((⌊-q1 * 10 + 1/2⌋ : ℤ) : ℚ) := by
      exact_mod_cast hf
    linarith
  · have h1f : (0 : ℤ) ≤ ⌊-q1 * 10 + 1/2⌋ := Int.floor_nonneg.mpr (by linarith)
    have h2f : (0 : ℤ) ≤ ⌊q2 * 10 + 1/2⌋ := Int.floor_nonneg.mpr (by linarith)
    have c1 : (0 : ℚ) ≤ ((⌊-q1 * 10 + 1/2⌋ : ℤ) : ℚ) := by exact_mod_cast h1f
    have c2 : (0 : ℚ) ≤ ((⌊q2 * 10 + 1/2⌋ : ℤ) : ℚ) := by exact_mod_cast h2f
    linarith
  · linarith
  · have hf : ⌊q1 * 10 + 1/2⌋ ≤ ⌊q2 * 10 + 1/2⌋ :=
      Int.floor_le_floor (by linarith)
    have hc : ((⌊q1 * 10 + 1/2⌋ : ℤ) : ℚ) ≤ ((⌊q2 * 10 + 1/2⌋ : ℤ) : ℚ) := by
      exact_mod_cast hf
    linarith

/-- Membership in a descending insertion. -/
theorem mem_insertByDesc {key : Dimension → ℚ} {a d : Dimension}
    {l : List Dimension} : a ∈ insertByDesc key d l ↔ a = d ∨ a ∈ l := by
  induction l with
  | nil => simp [insertByDesc]
  | cons e es ih =>
    unfold insertByDesc
    split_ifs with h
    · simp
    · simp [ih]
      tauto

/-- Sorting by descending key preserves membership. -/
theorem mem_sortByDesc {key : Dimension → ℚ} {a : Dimension}
    {l : List Dimension} : a ∈ sortByDesc key l ↔ a ∈ l := by
  induction l with
  | nil => simp [sortByDesc]
  | cons d ds ih =>
    unfold sortByDesc
    rw [mem_insertByDesc]
    simp [ih]

/-- A descending insertion grows the length by one. -/
theorem length_insertByDesc (key : Dimension → ℚ) (d : Dimension)
    (l : List Dimension) :
    (insertByDesc key d l).length = l.length + 1 := by
  induction l with
  | nil => rfl
  | cons e es ih =>
    unfold insertByDesc
    split_ifs with h
    · rfl
    · simp [ih]

/-- Sorting by descending key preserves the length. -/
theorem length_sortByDesc (key : Dimension → ℚ) (l : List Dimension) :
    (sortByDesc key l).length = l.length := by
  induction l with
  | nil => rfl
  | cons d ds ih =>
    unfold sortByDesc
    rw [length_insertByDesc, ih]
    rfl

/-- C2: `classify` is a total function mapping each total score to exactly
one letter grade by inclusive lower bounds A+ at 90, A at 80, B+ at 70,
B at 60, C at 50, D at 40 and F below 40, with boundary values in the
higher band; in particular `classify 90 = "A+"` and
`classify 89.9 = "A"`. -/
theorem classify_bands (s : ℚ) :
    ((90 ≤ s → classify s = "A+") ∧
     (80 ≤ s ∧ s < 90 → classify s = "A") ∧
     (70 ≤ s ∧ s < 80 → classify s = "B+") ∧
     (60 ≤ s ∧ s < 70 → classify s = "B") ∧
     (50 ≤ s ∧ s < 60 → classify s = "C") ∧
     (40 ≤ s ∧ s < 50 → classify s = "D") ∧
     (s < 40 → classify s = "F")) ∧
    classify 90 = "A+" ∧ classify (899/10) = "A" := by
  refine ⟨⟨?_, ?_, ?_, ?_, ?_, ?_, ?_⟩, by norm_num [classify], by norm_num [classify]⟩
  · intro h
    unfold classify
    rw [if_pos h]
  · rintro ⟨h1, h2⟩
    unfold classify
    rw [if_neg (by linarith), if_pos h1]
  · rintro ⟨h1, h2⟩
    unfold classify
    rw [if_neg (by linarith), if_neg (by linarith), if_pos h1]
  · rintro ⟨h1, h2⟩
    unfold classify
    rw [if_neg (by linarith), if_neg (by linarith), if_neg (by linarith), if_pos h1]
  · rintro ⟨h1, h2⟩
    unfold classify
    rw [if_neg (by linarith), if_neg (by linarith), if_neg (by linarith),
      if_neg (by linarith), if_pos h1]
  · rintro ⟨h1, h2⟩
    unfold classify
    rw [if_neg (by linarith), if_neg (by linarith), if_neg (by linarith),
      if_neg (by linarith), if_neg (by linarith), if_pos h1]
  · intro h
    unfold classify
    rw [if_neg (by linarith), if_neg (by linarith), if_neg (by linarith),
      if_neg (by linarith), if_neg (by linarith), if_neg (by linarith)]

/-- C2 witness: the band implications instantiated at concrete scores. -/
theorem classify_bands_witness :
    classify 95 = "A+" ∧ classify 45 = "D" :=
  ⟨(classify_bands 95).1.1 (by norm_num),
   (classify_bands 45).1.2.2.2.2.2.1 ⟨by norm_num, by norm_num⟩⟩

/-- C10: `isWithinSizeLimit` holds exactly when the blob size is at most
`maxSizeMB * 1024 * 1024` bytes, and its 50 MB default agrees with the
frontend limit `UPLOAD_LIMITS.MAX_AUDIO_SIZE = 50 * 1024 * 1024`. -/
theorem isWithinSizeLimit_spec :
    (∀ (size : ℕ) (maxSizeMB : ℚ),
      isWithinSizeLimit size maxSizeMB = true ↔
        (size : ℚ) ≤ maxSizeMB * 1024 * 1024) ∧
    (50 : ℚ) * 1024 * 1024 = (MAX_AUDIO_SIZE : ℚ) ∧
    isWithinSizeLimit MAX_AUDIO_SIZE = true ∧
    isWithinSizeLimit (MAX_AUDIO_SIZE + 1) = false := by
  refine ⟨fun size maxSizeMB => ?_,
    by norm_num [MAX_AUDIO_SIZE],
    by simp [isWithinSizeLimit, MAX_AUDIO_SIZE]; norm_num,
    by simp [isWithinSizeLimit, MAX_AUDIO_SIZE]; norm_num⟩
  simp [isWithinSizeLimit]

/-- When every attempt fails without a client-error code, the retry loop
performs all remaining attempts and returns the exhaustion result. -/
theorem withRetryFrom_all_fail (apiCall : ℕ → ApiResult)
    (h : ∀ i, (apiCall i).success = false ∧ isClientError (apiCall i) = false) :
    ∀ (remaining attempt : ℕ),
      withRetryFrom apiCall attempt remaining = (maxRetriesExceeded, remaining) := by
  intro remaining
  induction remaining with
  | zero => intro attempt; rfl
  | succ n ih =>
    intro attempt
    unfold withRetryFrom
    simp [(h attempt).1, (h attempt).2, ih (attempt + 1)]

/-- C9: `withRetry` never retries a client error — an `apiCall` whose
first result is unsuccessful with an error code in [400,500) is returned
after exactly one invocation; and when every result stays unsuccessful
with no such code, `apiCall` is invoked exactly `maxRetries` times and
the "Max retries exceeded" result is returned. The second component of
`withRetry` counts the `apiCall` invocations. -/
theorem withRetry_spec (apiCall : ℕ → ApiResult) (maxRetries : ℕ) :
    (1 ≤ maxRetries → (apiCall 1).success = false →
      isClientError (apiCall 1) = true →
      withRetry apiCall maxRetries = (apiCall 1, 1)) ∧
    ((∀ i, (apiCall i).success = false ∧ isClientError (apiCall i) = false) →
      withRetry apiCall maxRetries = (maxRetriesExceeded, maxRetries)) := by
  constructor
  · intro h1 h2 h3
    obtain ⟨m, rfl⟩ : ∃ m, maxRetries = m + 1 := ⟨maxRetries - 1, by omega⟩
    unfold withRetry withRetryFrom
    simp [h2, h3]
  · intro h
    unfold withRetry
    exact withRetryFrom_all_fail apiCall h maxRetries 1

/-- C9 witness: a 404 result is returned after one invocation; a repeated
500 result exhausts all three default retries. -/
theorem withRetry_spec_witness :
    withRetry (fun _ => { success := false
                          error := some { code := some 404, message := "Not Found" } }) 3 =
      ({ success := false, error := some { code := some 404, message := "Not Found" } }, 1) ∧
    withRetry (fun _ => { success := false
                          error := some { code := some 500, message := "Server Error" } }) 3 =
      (maxRetriesExceeded, 3) :=
  ⟨(withRetry_spec _ 3).1 (by norm_num) rfl (by decide),
   (withRetry_spec _ 3).2 (fun i => ⟨rfl, by decide⟩)⟩

/-- C4: the readiness score is the blend of 0.7 times the current total
score and 0.3 times the trend adjustment (current score plus the delta
against the average of the previous up to 3 scores clamped to plus or
minus 20, re-clamped to 0..100), and it always lies in [0,100]. -/
theorem evaluateReadiness_spec (c : ℚ) (rs : List ℚ) (w : Dimension)
    (hc0 : 0 ≤ c) (hc1 : c ≤ 100)
    (_hrs : ∀ x ∈ rs, 0 ≤ x ∧ x ≤ 100) :
    (evaluateReadiness c rs w).readiness_score =
      7/10 * c + 3/10 * trendAdjustment c rs ∧
    0 ≤ (evaluateReadiness c rs w).readiness_score ∧
    (evaluateReadiness c rs w).readiness_score ≤ 100 := by
  have he : (evaluateReadiness c rs w).readiness_score =
      7/10 * c + 3/10 * trendAdjustment c rs := rfl
  have ht0 : 0 ≤ trendAdjustment c rs := by
    unfold trendAdjustment clampQ
    exact le_max_left _ _
  have ht1 : trendAdjustment c rs ≤ 100 := by
    unfold trendAdjustment clampQ
    exact max_le (by norm_num) (min_le_left _ _)
  refine ⟨he, ?_, ?_⟩ <;> rw [he] <;> linarith

/-- C4 witness: the readiness contract instantiated at score 80 with
recent scores 70 and 60. -/
theorem evaluateReadiness_spec_witness :
    (evaluateReadiness 80 [70, 60] Dimension.grammar).readiness_score =
      7/10 * 80 + 3/10 * trendAdjustment 80 [70, 60] ∧
    0 ≤ (evaluateReadiness 80 [70, 60] Dimension.grammar).readiness_score ∧
    (evaluateReadiness 80 [70, 60] Dimension.grammar).readiness_score ≤ 100 :=
  evaluateReadiness_spec 80 [70, 60] Dimension.grammar (by norm_num) (by norm_num)
    (by decide)

/-- C5: one calendar day after the last completion increments the streak,
the same day leaves it unchanged, a gap of more than one day resets it
to 1; the longest streak is the maximum of the old longest and the new
current streak; completions on days 1, 2, 3 and 6 produce the streak
sequence 1, 2, 3, 1 with longest streak 3. -/
theorem applyCompletedSession_streak (stats : UserHistoryStats) (total : ℚ)
    (day l : ℤ) (hl : stats.last_completion_day = some l) :
    ((day = l + 1 →
       (applyCompletedSession stats total day).current_streak =
         stats.current_streak + 1) ∧
     (day = l →
       (applyCompletedSession stats total day).current_streak =
         stats.current_streak) ∧
     (l + 1 < day →
       (applyCompletedSession stats total day).current_streak = 1)) ∧
    (applyCompletedSession stats total day).longest_streak =
      max stats.longest_streak
        (applyCompletedSession stats total day).current_streak ∧
    streakSequence [1, 2, 3, 6] = [1, 2, 3, 1] ∧
    (historyAfter [1, 2, 3, 6]).longest_streak = 3 := by
  have hs : (applyCompletedSession stats total day).current_streak =
      streakUpdate stats.last_completion_day stats.current_streak day := rfl
  have hu : streakUpdate (some l) stats.current_streak day =
      if day = l + 1 then stats.current_streak + 1
      else if day = l then stats.current_streak else 1 := rfl
  refine ⟨⟨?_, ?_, ?_⟩, rfl, by decide, by decide⟩
  · intro h
    rw [hs, hl, hu, if_pos h]
  · intro h
    rw [hs, hl, hu, if_neg (by omega), if_pos h]
  · intro h
    rw [hs, hl, hu, if_neg (by omega), if_neg (by omega)]

/-- C5 witness: the streak cases instantiated on concrete stats with last
completion on day 5. -/
theorem applyCompletedSession_streak_witness :
    (applyCompletedSession midStreakStats 70 6).current_streak =
      midStreakStats.current_streak + 1 ∧
    (applyCompletedSession midStreakStats 70 5).current_streak =
      midStreakStats.current_streak ∧
    (applyCompletedSession midStreakStats 70 9).current_streak = 1 :=
  ⟨((applyCompletedSession_streak midStreakStats 70 6 5 rfl).1.1) rfl,
   ((applyCompletedSession_streak midStreakStats 70 5 5 rfl).1.2.1) rfl,
   ((applyCompletedSession_streak midStreakStats 70 9 5 rfl).1.2.2) (by norm_num)⟩

/-- C6: `computeSessionBreakdown` fails with `EmptySessionError` exactly
when no question contributed a score to any dimension; in particular the
exposed `computeAndStoreScores` on a completed session with zero
evaluated questions fails with `EmptySessionError`. -/
theorem computeSessionBreakdown_emptySession (qs : List QuestionScore)
    (p : WeightProfile) :
    (computeSessionBreakdown qs p = .error .emptySession ↔
      ∀ q ∈ qs, ∀ d, q.score d = none) ∧
    computeAndStoreScores .completed [] p = .error .emptySession := by
  have hcond : (Dimension.all.all (fun d => (contributors qs d).isEmpty) = true) ↔
      ∀ q ∈ qs, ∀ d, q.score d = none := by
    rw [List.all_eq_true]
    constructor
    · intro h q hq d
      have hd := h d (mem_dimension_all d)
      rw [List.isEmpty_iff] at hd
      exact (List.filterMap_eq_nil_iff.mp hd) q hq
    · intro h d _
      rw [List.isEmpty_iff]
      exact List.filterMap_eq_nil_iff.mpr (fun q hq => h q hq d)
  constructor
  · unfold computeSessionBreakdown
    split_ifs with h
    · simp only [true_iff, hcond.mp h]
      tauto
    · constructor
      · intro hc
        exact absurd hc (by simp)
      · intro hall
        exact absurd (hcond.mpr hall) h
  · rfl

/-- C7: every registered weight profile has non-negative weights summing
to 1 within 1e-6, and loading a weight map fails with
`InvalidWeightProfileError` exactly when some weight is negative or the
sum is off by more than the tolerance. Profiles are plain values in this
model, so none is ever mutated. -/
theorem weightProfile_invariant :
    (∀ p ∈ registeredProfiles,
      (∀ d, 0 ≤ p.weight d) ∧ |sumWeights p.weight - 1| ≤ 1/1000000) ∧
    (∀ (n : String) (w : Dimension → ℚ),
      loadWeightProfile n w = .error .invalidWeightProfile ↔
        ¬ ((∀ d, 0 ≤ w d) ∧ |sumWeights w - 1| ≤ 1/1000000)) := by
  constructor
  · intro p hp
    have hpd : p = defaultProfile := by
      simpa [registeredProfiles] using hp
    subst hpd
    constructor
    · intro d
      cases d <;> norm_num [defaultProfile, defaultWeights]
    · norm_num [defaultProfile, defaultWeights, sumWeights]
  · intro n w
    unfold loadWeightProfile
    split_ifs with h
    · constructor
      · intro hc
        exact absurd hc (by simp)
      · intro hc
        exact absurd h hc
    · constructor
      · intro _
        exact h
      · intro _
        rfl

/-- C7 witness: the default profile satisfies the invariant, and a weight
map with a negative weight is rejected at load time. -/
theorem weightProfile_invariant_witness :
    ((∀ d, 0 ≤ defaultProfile.weight d) ∧
      |sumWeights defaultProfile.weight - 1| ≤ 1/1000000) ∧
    loadWeightProfile "bad" (fun _ => -1) = .error .invalidWeightProfile :=
  ⟨weightProfile_invariant.1 defaultProfile (by simp [registeredProfiles]),
   (weightProfile_invariant.2 "bad" (fun _ => -1)).mpr
     (by
       intro hc
       have := hc.1 Dimension.relevance
       norm_num at this)⟩

/-- When every dimension has a contributor, the normalized total is the
plain weighted sum of the dimension averages for a profile whose weights
sum to 1. -/
theorem normalizedTotal_all_present (qs : List QuestionScore) (p : WeightProfile)
    (hfull : ∀ d, (contributors qs d).isEmpty = false)
    (hw : sumWeights p.weight = 1) :
    normalizedTotal (fun d => dimensionAverage qs d) p =
      weightedSum (fun d => avgVal (dimensionAverage qs) d) p.weight := by
  have hsome : ∀ d, (dimensionAverage qs d).isSome = true := by
    intro d
    simp [dimensionAverage, hfull d]
  have hfilter : Dimension.all.filter (fun d => (dimensionAverage qs d).isSome) =
      Dimension.all :=
    List.filter_eq_self.mpr (fun a _ => hsome a)
  simp only [normalizedTotal]
  rw [hfilter]
  simp only [Dimension.all, List.map_cons, List.map_nil, List.sum_cons, List.sum_nil]
  rw [show p.weight .relevance +
      (p.weight .grammar + (p.weight .fluency + (p.weight .keyword + 0))) = 1 from by
    rw [← hw]; unfold sumWeights; ring]
  rw [div_one]
  unfold weightedSum avgVal
  ring

/-- On a fully-present average map the normalized total is the weighted
sum divided by the weight sum. -/
theorem normalizedTotal_all_some (a : Dimension → ℚ) (p : WeightProfile) :
    normalizedTotal (fun e => some (a e)) p =
      weightedSum a p.weight / sumWeights p.weight := by
  simp only [normalizedTotal, Option.isSome_some, List.filter_eq_self]
  simp only [Dimension.all, List.filter, Option.isSome_some, List.map_cons, List.map_nil,
    List.sum_cons, List.sum_nil, Option.getD_some, weightedSum, sumWeights]
  ring_nf

/-- C1: when every dimension has contributors and the profile weights sum
to 1, `total_score` is the weighted sum of the dimension averages rounded
half away from zero to one decimal; for one question scored
relevance 82, grammar 75, fluency 80, keyword 77 under the default
weights 0.35/0.20/0.25/0.20 the total is 79.1 and the grade is B+. -/
theorem computeSessionBreakdown_total_formula (qs : List QuestionScore) (p : WeightProfile)
    (hfull : ∀ d, (contributors qs d).isEmpty = false)
    (hw : sumWeights p.weight = 1) :
    totalOf (computeSessionBreakdown qs p) =
      some (roundHalfAwayTenths
        (weightedSum (fun d => avgVal (dimensionAverage qs) d) p.weight)) ∧
    totalOf (computeSessionBreakdown [fullQuestion 82 75 80 77] defaultProfile) =
      some (791/10) ∧
    gradeOf (computeSessionBreakdown [fullQuestion 82 75 80 77] defaultProfile) =
      some "B+" := by
  have hcond : (Dimension.all.all fun d => (contributors qs d).isEmpty) = false := by
    rw [Bool.eq_false_iff]
    intro hall
    rw [List.all_eq_true] at hall
    have h := hall .relevance (mem_dimension_all _)
    rw [hfull] at h
    cases h
  have hconc : normalizedTotal
      (fun d => dimensionAverage [fullQuestion 82 75 80 77] d) defaultProfile = 791/10 := by
    norm_num [normalizedTotal, dimensionAverage, contributors, fullQuestion, Dimension.all,
      defaultProfile, defaultWeights, List.filterMap]
  have hcondc : (Dimension.all.all
      fun d => (contributors [fullQuestion 82 75 80 77] d).isEmpty) = false := rfl
  refine ⟨?_, ?_, ?_⟩
  · simp only [computeSessionBreakdown, hcond, Bool.false_eq_true, if_false, totalOf,
      Except.toOption, Option.map]
    rw [normalizedTotal_all_present qs p hfull hw]
  · simp only [computeSessionBreakdown, hcondc, Bool.false_eq_true, if_false, totalOf,
      Except.toOption, Option.map]
    rw [hconc]
    norm_num [roundHalfAwayTenths]
  · simp only [computeSessionBreakdown, hcondc, Bool.false_eq_true, if_false, gradeOf,
      Except.toOption, Option.map]
    rw [hconc]
    norm_num [roundHalfAwayTenths, classify]

/-- C1 witness: the total-score formula instantiated at the documented
example session. -/
theorem computeSessionBreakdown_total_formula_witness :
    totalOf (computeSessionBreakdown [fullQuestion 82 75 80 77] defaultProfile) =
      some (roundHalfAwayTenths
        (weightedSum (fun d => avgVal (dimensionAverage [fullQuestion 82 75 80 77]) d)
          defaultProfile.weight)) ∧
    totalOf (computeSessionBreakdown [fullQuestion 82 75 80 77] defaultProfile) =
      some (791/10) ∧
    gradeOf (computeSessionBreakdown [fullQuestion 82 75 80 77] defaultProfile) =
      some "B+" :=
  computeSessionBreakdown_total_formula [fullQuestion 82 75 80 77] defaultProfile
    (by intro d; cases d <;> rfl)
    (by norm_num [sumWeights, defaultProfile, defaultWeights])

/-- C8: with the weight profile fixed and valid, the rounded total score
is non-decreasing in any single dimension average when the others are
held fixed. -/
theorem totalScore_monotone (a1 a2 : Dimension → ℚ) (p : WeightProfile) (d : Dimension)
    (hw : ∀ e, 0 ≤ p.weight e) (hs : |sumWeights p.weight - 1| ≤ 1/1000000)
    (hagree : ∀ e, e ≠ d → a1 e = a2 e) (hle : a1 d ≤ a2 d) :
    roundHalfAwayTenths (normalizedTotal (fun e => some (a1 e)) p) ≤
      roundHalfAwayTenths (normalizedTotal (fun e => some (a2 e)) p) := by
  have hS : 0 < sumWeights p.weight := by
    have h := abs_le.mp hs
    linarith [h.1]
  have hnum : weightedSum a1 p.weight ≤ weightedSum a2 p.weight := by
    unfold weightedSum
    cases d
    case relevance =>
      have hg := hagree .grammar (by decide)
      have hf := hagree .fluency (by decide)
      have hk := hagree .keyword (by decide)
      have hm := mul_le_mul_of_nonneg_right hle (hw .relevance)
      rw [hg, hf, hk]
      linarith
    case grammar =>
      have hg := hagree .relevance (by decide)
      have hf := hagree .fluency (by decide)
      have hk := hagree .keyword (by decide)
      have hm := mul_le_mul_of_nonneg_right hle (hw .grammar)
      rw [hg, hf, hk]
      linarith
    case fluency =>
      have hg := hagree .relevance (by decide)
      have hf := hagree .grammar (by decide)
      have hk := hagree .keyword (by decide)
      have hm := mul_le_mul_of_nonneg_right hle (hw .fluency)
      rw [hg, hf, hk]
      linarith
    case keyword =>
      have hg := hagree .relevance (by decide)
      have hf := hagree .grammar (by decide)
      have hk := hagree .fluency (by decide)
      have hm := mul_le_mul_of_nonneg_right hle (hw .keyword)
      rw [hg, hf, hk]
      linarith
  rw [normalizedTotal_all_some, normalizedTotal_all_some]
  exact roundHalfAwayTenths_mono ((div_le_div_iff_of_pos_right hS).mpr hnum)

/-- C8 witness: raising the relevance average from 50 to 60 under the
default profile does not decrease the rounded total. -/
theorem totalScore_monotone_witness :
    roundHalfAwayTenths (normalizedTotal (fun _ => some (50:ℚ)) defaultProfile) ≤
      roundHalfAwayTenths (normalizedTotal
        (fun e => some (if e = Dimension.relevance then (60:ℚ) else 50)) defaultProfile) :=
  totalScore_monotone (fun _ => 50) (fun e => if e = Dimension.relevance then 60 else 50)
    defaultProfile Dimension.relevance
    (by intro e; cases e <;> norm_num [defaultProfile, defaultWeights])
    (by norm_num [sumWeights, defaultProfile, defaultWeights])
    (by intro e he; simp [he])
    (by norm_num)

/-- C3 counterexample: with every dimension average equal to 90 all four
dimensions are eligible strengths, but the emitted strengths list is
capped at 3 entries, so the keyword dimension is eligible yet absent —
the strengths are not exactly the dimensions with average at least 80. -/
theorem strengths_cap_counterexample :
    strengthEligible (fun _ => some (90:ℚ)) Dimension.keyword = true ∧
    Dimension.keyword ∉ strengthDims (fun _ => some (90:ℚ)) := by
  constructor
  · decide
  · decide

/-- C3 (amended): the synthesizer emits as strengths only dimensions with
average at least 80 and as weaknesses only dimensions with average below
60, each list capped at 3 entries; whenever at most 3 dimensions qualify
the list holds exactly the qualifying dimensions; when none qualifies the
single generic fallback entry is emitted, so neither output list is ever
empty. -/
theorem synthesize_thresholds (avg : Dimension → Option ℚ) :
    (∀ d ∈ strengthDims avg, strengthEligible avg d = true) ∧
    (∀ d ∈ weaknessDims avg, weaknessEligible avg d = true) ∧
    (strengthDims avg).length ≤ 3 ∧
    (weaknessDims avg).length ≤ 3 ∧
    ((Dimension.all.filter (strengthEligible avg)).length ≤ 3 →
      ∀ d, d ∈ strengthDims avg ↔ strengthEligible avg d = true) ∧
    ((Dimension.all.filter (weaknessEligible avg)).length ≤ 3 →
      ∀ d, d ∈ weaknessDims avg ↔ weaknessEligible avg d = true) ∧
    ((∀ d, strengthEligible avg d = false) →
      synthesizeStrengths avg = [fallbackStrength]) ∧
    ((∀ d, weaknessEligible avg d = false) →
      synthesizeWeaknesses avg = [fallbackWeakness]) ∧
    synthesizeStrengths avg ≠ [] ∧ synthesizeWeaknesses avg ≠ [] := by
  refine ⟨?_, ?_, ?_, ?_, ?_, ?_, ?_, ?_, ?_, ?_⟩
  · intro d hd
    have h1 : d ∈ sortByDesc (avgVal avg) (Dimension.all.filter (strengthEligible avg)) :=
      List.mem_of_mem_take hd
    rw [mem_sortByDesc] at h1
    exact (List.mem_filter.mp h1).2
  · intro d hd
    have h1 : d ∈ sortByDesc (fun d => -(avgVal avg d))
        (Dimension.all.filter (weaknessEligible avg)) :=
      List.mem_of_mem_take hd
    rw [mem_sortByDesc] at h1
    exact (List.mem_filter.mp h1).2
  · unfold strengthDims
    simp
  · unfold weaknessDims
    simp
  · intro hlen d
    have hlen2 : (sortByDesc (avgVal avg)
        (Dimension.all.filter (strengthEligible avg))).length ≤ 3 := by
      rw [length_sortByDesc]
      exact hlen
    unfold strengthDims
    rw [List.take_of_length_le hlen2, mem_sortByDesc, List.mem_filter]
    simp [mem_dimension_all]
  · intro hlen d
    have hlen2 : (sortByDesc (fun d => -(avgVal avg d))
        (Dimension.all.filter (weaknessEligible avg))).length ≤ 3 := by
      rw [length_sortByDesc]
      exact hlen
    unfold weaknessDims
    rw [List.take_of_length_le hlen2, mem_sortByDesc, List.mem_filter]
    simp [mem_dimension_all]
  · intro h
    have hfil : Dimension.all.filter (strengthEligible avg) = [] := by
      rw [List.filter_eq_nil_iff]
      intro a _
      simp [h a]
    unfold synthesizeStrengths strengthDims
    rw [hfil]
    rfl
  · intro h
    have hfil : Dimension.all.filter (weaknessEligible avg) = [] := by
      rw [List.filter_eq_nil_iff]
      intro a _
      simp [h a]
    unfold synthesizeWeaknesses weaknessDims
    rw [hfil]
    rfl
  · simp only [synthesizeStrengths]
    split_ifs with h
    · simp
    · intro hc
      rw [hc] at h
      exact h rfl
  · simp only [synthesizeWeaknesses]
    split_ifs with h
    · simp
    · intro hc
      rw [hc] at h
      exact h rfl

/-- C3 witness: the amended synthesizer properties instantiated at the
all-90 breakdown. -/
theorem synthesize_thresholds_witness :
    strengthEligible (fun _ => some (90:ℚ)) Dimension.relevance = true ∧
    synthesizeWeaknesses (fun _ => some (90:ℚ)) = [fallbackWeakness] :=
  ⟨(synthesize_thresholds (fun _ => some (90:ℚ))).1 Dimension.relevance (by decide),
   (synthesize_thresholds (fun _ => some (90:ℚ))).2.2.2.2.2.2.2.1
     (by intro d; cases d <;> decide)⟩
